import Mathlib

/-!
Verification of the send-pacing and session-lifecycle controller of the
bulk-messaging server (`src/server.js`).  The helper functions
(`getHumanizedDelay`, `needsBatchRest`, `checkDailyLimit`,
`formatPhoneNumber`, `replaceVariables`), the settings and send-bulk
routes, and the `processBulkSend` loop are embedded shallowly below.
JavaScript numbers appearing in the configuration are modelled as `Int`
(they are ordinary integers in every reachable state); `Math.random()`
draws are passed in explicitly as rationals in `[0,1)`; the awaited
transport calls inside the loop are abstracted into an environment that
fixes, per queue index, the registration answer, a possible delivery
error and whether a stop request arrives during each of the two waits.
-/

namespace BulkSender

/-- Configuration record, mirroring the `settings` object of the source
(the `sessionName` field of the single-user variant is UI glue and
omitted; all numeric fields are JS numbers, modelled as `Int`). -/
structure Settings where
  minDelay : Int
  maxDelay : Int
  batchSize : Int
  batchRestMin : Int
  batchRestMax : Int
  warmupMessages : Int
  warmupDelayMin : Int
  warmupDelayMax : Int
  dailyLimit : Int
  simulateTyping : Bool
  addRandomPause : Bool
deriving DecidableEq, Repr

/-- The `DEFAULT_SETTINGS` constant of `src/server.js`. -/
def DEFAULT_SETTINGS : Settings :=
  { minDelay := 8, maxDelay := 15, batchSize := 25,
    batchRestMin := 90, batchRestMax := 120,
    warmupMessages := 10, warmupDelayMin := 15, warmupDelayMax := 25,
    dailyLimit := 300, simulateTyping := true, addRandomPause := true }

/-- Daily counter `{date, count}`; `toDateString()` values are opaque and
modelled as integers. -/
structure DailyCounter where
  date : Int
  count : Int
deriving DecidableEq, Repr

/-- Quota-relevant part of a session: the daily counter together with the
warmup counter `sessionCounter`. -/
structure QuotaState where
  dailyCounter : DailyCounter
  sessionCounter : Int
deriving DecidableEq, Repr

/-- Embedding of `checkDailyLimit(session)`: if the stored date differs
from `today` the daily counter is reset to `{date: today, count: 0}` and
`sessionCounter` to `0`; the returned boolean is
`dailyCounter.count < settings.dailyLimit` on the (possibly reset)
state.  The mutation of `session` is made explicit in the returned
state. -/
def checkDailyLimit (dailyLimit : Int) (today : Int) (s : QuotaState) :
    Bool × QuotaState :=
  let s' := if s.dailyCounter.date ≠ today then
      { dailyCounter := { date := today, count := 0 }, sessionCounter := 0 }
    else s
  (decide (s'.dailyCounter.count < dailyLimit), s')

/-- JS remainder `i % b` for a non-negative dividend: `none` models the
`NaN` produced by `b = 0`; otherwise the result equals `i % |b|` (the JS
remainder carries the sign of the dividend, which is non-negative
here). -/
def jsRemNonneg (i : Nat) (b : Int) : Option Int :=
  if b = 0 then none else some ((i : Int) % (b.natAbs : Int))

/-- Embedding of `needsBatchRest(session, messageIndex)`:
`messageIndex > 0 && messageIndex % settings.batchSize === 0` (note that
`NaN === 0` is `false`, covered by the `none` branch). -/
def needsBatchRest (batchSize : Int) (messageIndex : Nat) : Bool :=
  decide (messageIndex > 0) &&
    (match jsRemNonneg messageIndex batchSize with
     | none => false
     | some r => decide (r = 0))

/-- The integer draw `Math.floor(Math.random() * (hi - lo + 1) + lo)`,
with the `Math.random()` value `r` passed explicitly. -/
def jsRandInt (lo hi : Int) (r : ℚ) : Int :=
  ⌊r * ((hi : ℚ) - (lo : ℚ) + 1) + (lo : ℚ)⌋

/-- Embedding of `getHumanizedDelay(session)`.  The three
`Math.random()` calls of the source are the parameters `r1` (base draw),
`r2` (the `< 0.1` test) and `r3` (the extra-pause draw); the function is
pure given these.  Returns milliseconds. -/
def getHumanizedDelay (cfg : Settings) (sessionCounter : Int)
    (r1 r2 r3 : ℚ) : Int :=
  let lo := if sessionCounter < cfg.warmupMessages then cfg.warmupDelayMin
    else cfg.minDelay
  let hi := if sessionCounter < cfg.warmupMessages then cfg.warmupDelayMax
    else cfg.maxDelay
  let delay := jsRandInt lo hi r1
  let delay := if cfg.addRandomPause && decide (r2 < 1/10) then
      delay + (⌊r3 * 20⌋ + 10)
    else delay
  delay * 1000

/-- Embedding of `getBatchRestDuration(session)`; milliseconds. -/
def getBatchRestDuration (cfg : Settings) (r : ℚ) : Int :=
  jsRandInt cfg.batchRestMin cfg.batchRestMax r * 1000

/-- Embedding of `formatPhoneNumber(phone)` on an explicit character
list: strip non-digits (`replace(/\D/g, '')`), replace a leading `0` by
`62`, and append `@c.us` when no `@` is present. -/
def formatPhoneNumber (phone : List Char) : List Char :=
  let cleaned := phone.filter Char.isDigit
  let cleaned := if cleaned.head? = some '0' then '6' :: '2' :: cleaned.tail
    else cleaned
  if cleaned.contains '@' then cleaned else cleaned ++ ('@' :: 'c' :: '.' :: 'u' :: 's' :: [])

/-- Case-insensitive character comparison, as performed by the `i` flag
of the replacement regexes. -/
def ciEq (a b : Char) : Bool := a.toLower == b.toLower

/-- Does the pattern match case-insensitively at the head of `s`? -/
def ciStarts : List Char → List Char → Bool
  | [], _ => true
  | _ :: _, [] => false
  | p :: ps, c :: cs => ciEq p c && ciStarts ps cs

/-- Fuelled worker for the global case-insensitive replacement; each
step consumes one unit of fuel and at least one input character, so fuel
equal to the input length never runs out on a non-empty input. -/
def replaceAllCIFuel (pat repl : List Char) : Nat → List Char → List Char
  | _, [] => []
  | 0, s => s
  | Nat.succ fuel, c :: rest =>
    if 0 < pat.length ∧ ciStarts pat (c :: rest) = true then
      repl ++ replaceAllCIFuel pat repl fuel (rest.drop (pat.length - 1))
    else
      c :: replaceAllCIFuel pat repl fuel rest

/-- Global, left-to-right, non-overlapping, case-insensitive replacement
of a literal pattern, the semantics of `String.replace(/pat/gi, repl)`
for the literal placeholder patterns of the source. -/
def replaceAllCI (pat repl s : List Char) : List Char :=
  replaceAllCIFuel pat repl s.length s

/-- Does `s` contain a case-insensitive occurrence of the pattern? -/
def containsCI (pat : List Char) : List Char → Bool
  | [] => ciStarts pat []
  | c :: rest => ciStarts pat (c :: rest) || containsCI pat rest

/-- Placeholder `\x7bname\x7d`. -/
def patName : List Char := "\x7bname\x7d".toList

/-- Placeholder `\x7bnama\x7d`. -/
def patNama : List Char := "\x7bnama\x7d".toList

/-- Placeholder `\x7bphone\x7d`. -/
def patPhone : List Char := "\x7bphone\x7d".toList

/-- Placeholder `\x7bnomor\x7d`. -/
def patNomor : List Char := "\x7bnomor\x7d".toList

/-- Embedding of `replaceVariables(template, contact)`: the four chained
case-insensitive global replacements; `contactName`/`contactPhone` are
the already-defaulted `contact.name || ''` and `contact.phone || ''`. -/
def replaceVariables (template contactName contactPhone : List Char) :
    List Char :=
  replaceAllCI patNomor contactPhone
    (replaceAllCI patPhone contactPhone
      (replaceAllCI patNama contactName
        (replaceAllCI patName contactName template)))

/-- The string contains none of the four recognized placeholders (in any
letter case). -/
def noPlaceholders (s : List Char) : Prop :=
  containsCI patName s = false ∧ containsCI patNama s = false ∧
    containsCI patPhone s = false ∧ containsCI patNomor s = false

lemma replaceAllCIFuel_of_not_containsCI (pat repl : List Char) :
    ∀ (s : List Char) (fuel : Nat), containsCI pat s = false →
      replaceAllCIFuel pat repl fuel s = s := by
  intro s
  induction s with
  | nil => intro fuel _; cases fuel <;> rfl
  | cons c rest ih =>
    intro fuel h
    rw [containsCI] at h
    simp only [Bool.or_eq_false_iff] at h
    cases fuel with
    | zero => rfl
    | succ fuel =>
      rw [replaceAllCIFuel, if_neg]
      · rw [ih fuel h.2]
      · rintro ⟨-, hs⟩
        rw [h.1] at hs
        exact Bool.false_ne_true hs

lemma replaceAllCI_of_not_containsCI (pat repl : List Char)
    (s : List Char) (h : containsCI pat s = false) :
    replaceAllCI pat repl s = s :=
  replaceAllCIFuel_of_not_containsCI pat repl s s.length h

/-- Per-recipient result entry `{phone, name, status, error}`; `ok` is
`true` for status `success` and `error` is present iff the status is
`failed`. -/
structure ResultEntry where
  phone : List Char
  name : List Char
  ok : Bool
  error : Option (List Char)
deriving DecidableEq, Repr

/-- Job record `{total, sent, failed, results}`. -/
structure Job where
  total : Nat
  sent : Nat
  failed : Nat
  results : List ResultEntry
deriving DecidableEq, Repr

/-- A fresh job as created by the send-bulk route:
`{ total: contacts.length, sent: 0, failed: 0, results: [] }`. -/
def startJob (n : Nat) : Job := { total := n, sent := 0, failed := 0, results := [] }

/-- A recipient as consumed by the controller. -/
structure Contact where
  phone : List Char
  name : List Char
deriving DecidableEq, Repr

/-- Mutable session fields touched by the routes and the controller. -/
structure SessionState where
  isReady : Bool
  sendingInProgress : Bool
  currentJob : Option Job
  dailyCounter : DailyCounter
  sessionCounter : Int
  settings : Settings
deriving DecidableEq, Repr

/-- A settings-update request body: any subset of the configuration
fields may be present (absent fields keep their stored value under the
spread merge). -/
structure SettingsPatch where
  minDelay : Option Int := none
  maxDelay : Option Int := none
  batchSize : Option Int := none
  batchRestMin : Option Int := none
  batchRestMax : Option Int := none
  warmupMessages : Option Int := none
  warmupDelayMin : Option Int := none
  warmupDelayMax : Option Int := none
  dailyLimit : Option Int := none
  simulateTyping : Option Bool := none
  addRandomPause : Option Bool := none
deriving DecidableEq, Repr

/-- The spread merge `{ ...settings, ...req.body }`. -/
def mergeSettings (cur : Settings) (p : SettingsPatch) : Settings :=
  { minDelay := p.minDelay.getD cur.minDelay,
    maxDelay := p.maxDelay.getD cur.maxDelay,
    batchSize := p.batchSize.getD cur.batchSize,
    batchRestMin := p.batchRestMin.getD cur.batchRestMin,
    batchRestMax := p.batchRestMax.getD cur.batchRestMax,
    warmupMessages := p.warmupMessages.getD cur.warmupMessages,
    warmupDelayMin := p.warmupDelayMin.getD cur.warmupDelayMin,
    warmupDelayMax := p.warmupDelayMax.getD cur.warmupDelayMax,
    dailyLimit := p.dailyLimit.getD cur.dailyLimit,
    simulateTyping := p.simulateTyping.getD cur.simulateTyping,
    addRandomPause := p.addRandomPause.getD cur.addRandomPause }

/-- Embedding of `POST /api/session/:sessionId/settings` (and of the
identical single-user `POST /api/settings`), given an existing session:
the body is merged into the stored settings and the route answers
`success: true`; there is no validation branch. -/
def updateSettingsRoute (s : SessionState) (p : SettingsPatch) :
    Bool × SessionState :=
  (true, { s with settings := mergeSettings s.settings p })

/-- Embedding of `POST /api/session/:sessionId/stop`: clears the
`sendingInProgress` flag. -/
def stopRoute (s : SessionState) : Bool × SessionState :=
  (true, { s with sendingInProgress := false })

/-- JS falsiness of an optional string request field (`undefined` or the
empty string). -/
def jsFalsy : Option (List Char) → Bool
  | none => true
  | some s => s.isEmpty

/-- Outcome of the send-bulk route, mirroring its four rejection
responses and the acceptance response carrying the recipient total. -/
inductive StartResult where
  | notConnected
  | inProgress
  | noContacts
  | messageRequired
  | accepted (total : Nat)
deriving DecidableEq, Repr

/-- Embedding of `POST /api/session/:sessionId/send-bulk`, for an
existing session: the guard chain (`!isReady`, `sendingInProgress`,
empty contacts, `!message && !mediaPath`) in source order, then the
mutation `sendingInProgress = true` and creation of the fresh job. -/
def sendBulkRoute (s : SessionState) (contacts : List Contact)
    (message mediaPath : Option (List Char)) : StartResult × SessionState :=
  if s.isReady = false then (.notConnected, s)
  else if s.sendingInProgress = true then (.inProgress, s)
  else if contacts.length = 0 then (.noContacts, s)
  else if jsFalsy message && jsFalsy mediaPath then (.messageRequired, s)
  else (.accepted contacts.length,
    { s with sendingInProgress := true,
             currentJob := some (startJob contacts.length) })

/-- State threaded through the `processBulkSend` loop: the current job
plus the counters and the stop flag. -/
structure RunState where
  job : Job
  dailyCounter : DailyCounter
  sessionCounter : Int
  sendingInProgress : Bool
deriving DecidableEq, Repr

/-- Environment of one run: per queue index, the transport's answer to
`isRegisteredUser`, a possible error thrown by the dispatch
(`sendMessage` / `MessageMedia.fromFilePath`), whether a stop request
lands during the batch-rest wait at that index, whether one lands during
the inter-message delay after that index, and the value of
`new Date().toDateString()` at that iteration's quota check.
(`simulateTyping` swallows its own errors in the source and therefore
never contributes a failure.) -/
structure Env where
  registered : Nat → Bool
  sendErr : Nat → Option (List Char)
  stopDuringRest : Nat → Bool
  stopDuringDelay : Nat → Bool
  today : Nat → Int

/-- The error message of the `throw` on an unregistered address. -/
def notRegisteredMsg : List Char := "Not registered on WhatsApp".toList

/-- Outcome of the `try` block for queue index `i`: the registration
check throws `notRegisteredMsg` when negative, otherwise the dispatch
either succeeds or throws its delivery error. -/
def stepOutcome (env : Env) (i : Nat) : Option (List Char) :=
  if env.registered i = false then some notRegisteredMsg
  else env.sendErr i

/-- Events emitted to the session socket during a run (payloads that are
pure presentation — durations, batch numbers, progress snapshots — are
omitted; the result entry of the per-recipient events and the final job
snapshot are kept). -/
inductive Event where
  | limitReached (limit : Int)
  | batchRest
  | messageSent (e : ResultEntry)
  | messageFailed (e : ResultEntry)
  | waiting
  | bulkComplete (j : Job)
deriving DecidableEq, Repr

/-- Why the loop ended: queue exhausted (`completed`), loop-top stop
check (`stopped`), or failed quota check (`quotaExhausted`). -/
inductive HaltReason where
  | completed
  | stopped
  | quotaExhausted
deriving DecidableEq, Repr

/-- Per-recipient processing: the body of the `try`/`catch` of the loop,
updating the job, the counters (on success only) and pushing the result
entry built from the contact's original `phone`/`name` fields. -/
def processContact (env : Env) (i : Nat) (c : Contact) (st : RunState) :
    RunState × Event :=
  match stepOutcome env i with
  | none =>
    let e : ResultEntry := { phone := c.phone, name := c.name, ok := true, error := none }
    ({ st with
        job := { st.job with
                   sent := st.job.sent + 1,
                   results := st.job.results ++ [e] },
        dailyCounter := { st.dailyCounter with count := st.dailyCounter.count + 1 },
        sessionCounter := st.sessionCounter + 1 },
     .messageSent e)
  | some msg =>
    let e : ResultEntry := { phone := c.phone, name := c.name, ok := false, error := some msg }
    ({ st with
        job := { st.job with
                   failed := st.job.failed + 1,
                   results := st.job.results ++ [e] } },
     .messageFailed e)

/-- Boolean answer of the quota check performed at iteration `i`
(`checkDailyLimit(session)` at the top of the loop body). -/
def quotaAllowed (cfg : Settings) (env : Env) (i : Nat) (st : RunState) : Bool :=
  (checkDailyLimit cfg.dailyLimit (env.today i)
    { dailyCounter := st.dailyCounter, sessionCounter := st.sessionCounter }).1

/-- Session state right after the quota check of iteration `i` (the
check may have reset the daily counter and `sessionCounter`). -/
def quotaState (cfg : Settings) (env : Env) (i : Nat) (st : RunState) : RunState :=
  { st with
      dailyCounter := (checkDailyLimit cfg.dailyLimit (env.today i)
        { dailyCounter := st.dailyCounter,
          sessionCounter := st.sessionCounter }).2.dailyCounter,
      sessionCounter := (checkDailyLimit cfg.dailyLimit (env.today i)
        { dailyCounter := st.dailyCounter,
          sessionCounter := st.sessionCounter }).2.sessionCounter }

/-- State after the (possible) batch-rest wait of iteration `i`: a stop
request arriving during the wait clears the flag, and nothing else
happens — in particular the flag is NOT re-checked before the recipient
is processed. -/
def afterRest (cfg : Settings) (env : Env) (i : Nat) (st : RunState) : RunState :=
  if needsBatchRest cfg.batchSize i && env.stopDuringRest i then
    { quotaState cfg env i st with sendingInProgress := false }
  else quotaState cfg env i st

/-- State and emitted event after recipient `c` of iteration `i` has
been processed. -/
def afterProcess (cfg : Settings) (env : Env) (i : Nat) (c : Contact)
    (st : RunState) : RunState × Event :=
  processContact env i c (afterRest cfg env i st)

/-- State after the inter-message delay following iteration `i`: a stop
request arriving during the delay clears the flag. -/
def afterDelay (cfg : Settings) (env : Env) (i : Nat) (c : Contact)
    (st : RunState) : RunState :=
  if env.stopDuringDelay i then
    { (afterProcess cfg env i c st).1 with sendingInProgress := false }
  else (afterProcess cfg env i c st).1

/-- The `for` loop of `processBulkSend`, by recursion over the remaining
queue, `i` being the absolute index of its head.  Faithful points: the
loop-top stop check, the quota check (which may reset the counters), the
batch-rest wait during which a stop request only clears the flag (the
recipient of the current index is processed regardless), and the
inter-message delay — taken only when further recipients remain
(`i < contacts.length - 1`) and the flag is still set — during which a
stop request clears the flag before the next loop-top check. -/
def runLoop (cfg : Settings) (env : Env) :
    List Contact → Nat → RunState → RunState × List Event × HaltReason
  | [], _, st => (st, [], .completed)
  | c :: rest, i, st =>
    if st.sendingInProgress = false then (st, [], .stopped)
    else if quotaAllowed cfg env i st = false then
      (quotaState cfg env i st, [.limitReached cfg.dailyLimit], .quotaExhausted)
    else
      let restEvs : List Event :=
        if needsBatchRest cfg.batchSize i then [.batchRest] else []
      let pr := afterProcess cfg env i c st
      if rest.isEmpty = false ∧ pr.1.sendingInProgress = true then
        let rec5 := runLoop cfg env rest (i + 1) (afterDelay cfg env i c st)
        (rec5.1, restEvs ++ [pr.2] ++ [.waiting] ++ rec5.2.1, rec5.2.2)
      else
        let rec5 := runLoop cfg env rest (i + 1) pr.1
        (rec5.1, restEvs ++ [pr.2] ++ rec5.2.1, rec5.2.2)

/-- Embedding of `processBulkSend`: run the loop from index `0`, then
clear `sendingInProgress` and emit `bulk_complete` with the final job
snapshot (the source does this unconditionally after the loop). -/
def processBulkSend (cfg : Settings) (env : Env) (contacts : List Contact)
    (st : RunState) : RunState × List Event × HaltReason :=
  let r := runLoop cfg env contacts 0 st
  let st' := { r.1 with sendingInProgress := false }
  (st', r.2.1 ++ [.bulkComplete st'.job], r.2.2)

/-- CLAIM C4: the daily-quota check resets `{date: today, count: 0}` and
`sessionCounter := 0` when the stored date differs from today (and
leaves the state untouched otherwise), returns true iff the possibly
reset count is strictly below `dailyLimit`; hence once the count equals
the limit it answers false on every call until the date advances, after
which (for a positive limit) it answers true. -/
theorem checkDailyLimit_rollover_spec (limit today : Int) (s : QuotaState) :
    (s.dailyCounter.date ≠ today →
      (checkDailyLimit limit today s).2 =
        { dailyCounter := { date := today, count := 0 }, sessionCounter := 0 })
    ∧ (s.dailyCounter.date = today → (checkDailyLimit limit today s).2 = s)
    ∧ ((checkDailyLimit limit today s).1 = true ↔
        (checkDailyLimit limit today s).2.dailyCounter.count < limit)
    ∧ (s.dailyCounter.date = today → s.dailyCounter.count = limit →
        (checkDailyLimit limit today s).1 = false)
    ∧ (s.dailyCounter.date ≠ today → 0 < limit →
        (checkDailyLimit limit today s).1 = true) := by
  by_cases h : s.dailyCounter.date = today
  · refine ⟨fun hc => absurd h hc, fun _ => by simp [checkDailyLimit, h], ?_, ?_, ?_⟩
    · simp [checkDailyLimit, h]
    · intro _ hcnt
      simp [checkDailyLimit, h, hcnt]
    · intro hc
      exact absurd h hc
  · refine ⟨fun _ => by simp [checkDailyLimit, h], fun hc => absurd hc h, ?_, ?_, ?_⟩
    · simp [checkDailyLimit, h]
    · intro hc
      exact absurd hc h
    · intro _ hpos
      simp [checkDailyLimit, h, hpos]

/-- Concrete quota state used by the C4 witness: five sends recorded on
day 0 against a limit of five. -/
def quotaAtLimit : QuotaState :=
  { dailyCounter := { date := 0, count := 5 }, sessionCounter := 3 }

/-- Witness for C4 at concrete inputs: a stale date resets the counters
and (with positive limit) allows sending again; a same-day state with
the count at the limit is refused. -/
theorem checkDailyLimit_rollover_spec_witness :
    (checkDailyLimit 5 1 quotaAtLimit).2 =
      { dailyCounter := { date := 1, count := 0 }, sessionCounter := 0 }
    ∧ (checkDailyLimit 5 1 quotaAtLimit).1 = true
    ∧ (checkDailyLimit 5 0 quotaAtLimit).1 = false :=
  ⟨(checkDailyLimit_rollover_spec 5 1 quotaAtLimit).1 (by decide),
   (checkDailyLimit_rollover_spec 5 1 quotaAtLimit).2.2.2.2 (by decide) (by decide),
   (checkDailyLimit_rollover_spec 5 0 quotaAtLimit).2.2.2.1 rfl rfl⟩

/-- CLAIM C6: for positive `batchSize = b` the batch-rest predicate
holds exactly on the positive multiples of `b`, and at index `0` it is
false for every `batchSize` whatsoever. -/
theorem needsBatchRest_spec (b : Int) (i : Nat) (hb : 0 < b) :
    (needsBatchRest b i = true ↔ 0 < i ∧ (i : Int) % b = 0)
    ∧ ∀ bAny : Int, needsBatchRest bAny 0 = false := by
  constructor
  · have hb0 : ¬ b = 0 := by omega
    have habs : ((b.natAbs : Int)) = b := Int.natAbs_of_nonneg (le_of_lt hb)
    simp [needsBatchRest, jsRemNonneg, hb0, habs]
  · intro bAny
    simp [needsBatchRest]

/-- Witness for C6 at concrete inputs. -/
theorem needsBatchRest_spec_witness :
    (needsBatchRest 3 6 = true ↔ 0 < 6 ∧ (6 : Int) % 3 = 0)
    ∧ ∀ bAny : Int, needsBatchRest bAny 0 = false :=
  needsBatchRest_spec 3 6 (by decide)

lemma replaceVariables_of_noPlaceholders (s contactName contactPhone : List Char)
    (h : noPlaceholders s) : replaceVariables s contactName contactPhone = s := by
  obtain ⟨h1, h2, h3, h4⟩ := h
  unfold replaceVariables
  rw [replaceAllCI_of_not_containsCI patName contactName s h1,
    replaceAllCI_of_not_containsCI patNama contactName s h2,
    replaceAllCI_of_not_containsCI patPhone contactPhone s h3,
    replaceAllCI_of_not_containsCI patNomor contactPhone s h4]

/-- CLAIM C9: personalization substitution is idempotent on its own
output: if one application of `replaceVariables` leaves no recognized
placeholder, a second application with the same contact fields returns
the string unchanged. -/
theorem replaceVariables_idem (template contactName contactPhone : List Char)
    (h : noPlaceholders (replaceVariables template contactName contactPhone)) :
    replaceVariables (replaceVariables template contactName contactPhone)
        contactName contactPhone
      = replaceVariables template contactName contactPhone :=
  replaceVariables_of_noPlaceholders _ contactName contactPhone h

/-- Witness for C9 on a concrete template whose single application
resolves every placeholder. -/
theorem replaceVariables_idem_witness :
    replaceVariables
        (replaceVariables "Hi \x7bNaMe\x7d (\x7bnomor\x7d)".toList
          "Ana".toList "0812".toList)
        "Ana".toList "0812".toList
      = replaceVariables "Hi \x7bNaMe\x7d (\x7bnomor\x7d)".toList
          "Ana".toList "0812".toList :=
  replaceVariables_idem "Hi \x7bNaMe\x7d (\x7bnomor\x7d)".toList
    "Ana".toList "0812".toList (by refine ⟨?_, ?_, ?_, ?_⟩ <;> decide)

lemma contains_at_eq_false (l : List Char) (h : ∀ c ∈ l, c.isDigit = true) :
    l.contains '@' = false := by
  induction l with
  | nil => rfl
  | cons c rest ih =>
    have hc := h c (List.mem_cons_self c rest)
    have hne : ('@' == c) = false := by
      rw [beq_eq_false_iff_ne]
      intro e
      rw [← e] at hc
      exact absurd hc (by decide)
    rw [List.contains_cons, hne, Bool.false_or]
    exact ih (fun a ha => h a (List.mem_cons_of_mem c ha))

/-- The transport-domain suffix appended by `formatPhoneNumber`. -/
def cUsSuffix : List Char := '@' :: 'c' :: '.' :: 'u' :: 's' :: []

lemma formatPhoneNumber_fixed (d : List Char)
    (hd : ∀ c ∈ d, c.isDigit = true) (h0 : d.head? ≠ some '0') :
    formatPhoneNumber (d ++ cUsSuffix) = d ++ cUsSuffix := by
  have hfil : (d ++ cUsSuffix).filter Char.isDigit = d := by
    rw [List.filter_append, List.filter_eq_self.mpr hd]
    have hsuf : cUsSuffix.filter Char.isDigit = [] := by decide
    rw [hsuf, List.append_nil]
  unfold formatPhoneNumber
  simp only [hfil, if_neg h0, contains_at_eq_false d hd]
  simp [cUsSuffix]

lemma formatPhoneNumber_shape (s : List Char) :
    ∃ d : List Char, (∀ c ∈ d, c.isDigit = true) ∧ d.head? ≠ some '0' ∧
      formatPhoneNumber s = d ++ cUsSuffix := by
  have hall : ∀ x ∈ s.filter Char.isDigit, x.isDigit = true :=
    fun x hx => List.of_mem_filter hx
  cases hd : s.filter Char.isDigit with
  | nil =>
    refine ⟨[], by simp, by simp, ?_⟩
    unfold formatPhoneNumber
    rw [hd]
    rfl
  | cons c t =>
    rw [hd] at hall
    have htail : ∀ x ∈ t, x.isDigit = true :=
      fun x hx => hall x (List.mem_cons_of_mem c hx)
    by_cases h0 : c = '0'
    · have hdig : ∀ x ∈ '6' :: '2' :: t, x.isDigit = true := by
        intro x hx
        simp only [List.mem_cons] at hx
        rcases hx with rfl | rfl | hx
        · decide
        · decide
        · exact htail x hx
      refine ⟨'6' :: '2' :: t, hdig, by simp, ?_⟩
      unfold formatPhoneNumber
      subst h0
      simp only [hd, List.head?_cons, List.tail_cons, if_pos rfl,
        contains_at_eq_false _ hdig]
      simp [cUsSuffix]
      intro hmem
      exact absurd (htail '@' hmem) (by decide)
    · have hne : (c :: t).head? ≠ some '0' := by simp [h0]
      refine ⟨c :: t, hall, hne, ?_⟩
      unfold formatPhoneNumber
      simp only [hd, if_neg hne, contains_at_eq_false _ hall]
      simp [cUsSuffix]

/-- CLAIM C10: phone-number normalization is idempotent: re-normalizing
an already normalized address yields the same address. -/
theorem formatPhoneNumber_idem (s : List Char) :
    formatPhoneNumber (formatPhoneNumber s) = formatPhoneNumber s := by
  obtain ⟨d, hd, h0, he⟩ := formatPhoneNumber_shape s
  rw [he]
  exact formatPhoneNumber_fixed d hd h0

lemma jsRandInt_mem (lo hi : Int) (r : ℚ) (hlohi : lo ≤ hi)
    (h0 : 0 ≤ r) (h1 : r < 1) :
    lo ≤ jsRandInt lo hi r ∧ jsRandInt lo hi r ≤ hi := by
  have hc : (lo : ℚ) ≤ (hi : ℚ) := by exact_mod_cast hlohi
  have hpos : (0 : ℚ) < (hi : ℚ) - lo + 1 := by linarith
  constructor
  · rw [jsRandInt, Int.le_floor]
    have hnn : (0 : ℚ) ≤ r * ((hi : ℚ) - lo + 1) := mul_nonneg h0 (le_of_lt hpos)
    linarith
  · have hlt : jsRandInt lo hi r < hi + 1 := by
      rw [jsRandInt, Int.floor_lt]
      have hm : r * ((hi : ℚ) - lo + 1) < 1 * ((hi : ℚ) - lo + 1) :=
        mul_lt_mul_of_pos_right h1 hpos
      push_cast
      linarith
    omega

lemma jsRandInt_surj (lo hi k : Int) (hlo : lo ≤ k) (hhi : k ≤ hi) :
    ∃ r : ℚ, 0 ≤ r ∧ r < 1 ∧ jsRandInt lo hi r = k := by
  have hc1 : (lo : ℚ) ≤ (k : ℚ) := by exact_mod_cast hlo
  have hc2 : (k : ℚ) ≤ (hi : ℚ) := by exact_mod_cast hhi
  have hpos : (0 : ℚ) < (hi : ℚ) - lo + 1 := by linarith
  refine ⟨((k : ℚ) - lo) / ((hi : ℚ) - lo + 1), ?_, ?_, ?_⟩
  · apply div_nonneg _ (le_of_lt hpos)
    linarith
  · rw [div_lt_one hpos]
    linarith
  · rw [jsRandInt, div_mul_cancel₀ _ (ne_of_gt hpos)]
    have hk : (k : ℚ) - lo + lo = (k : ℚ) := by ring
    rw [hk, Int.floor_intCast]

/-- CLAIM C5: the delay policy is a pure function of the configuration,
the session counter and the three injected `Math.random()` draws; it
returns `(base + pause) * 1000` milliseconds where the integer base lies
in `[warmupDelayMin, warmupDelayMax]` while `sessionCounter <
warmupMessages` and in `[minDelay, maxDelay]` afterwards (and every
integer of the selected interval is attainable by some draw, both
endpoints included), and the pause is a value of `[10, 29]` exactly when
`addRandomPause` is set and the second draw falls below `0.1`, and `0`
otherwise. -/
theorem getHumanizedDelay_spec (cfg : Settings) (sc : Int) (r1 r2 r3 : ℚ)
    (h10 : 0 ≤ r1) (h11 : r1 < 1) (h30 : 0 ≤ r3) (h31 : r3 < 1)
    (hw : cfg.warmupDelayMin ≤ cfg.warmupDelayMax)
    (hs : cfg.minDelay ≤ cfg.maxDelay) :
    ∃ base pause : Int,
      getHumanizedDelay cfg sc r1 r2 r3 = (base + pause) * 1000
      ∧ (sc < cfg.warmupMessages →
          cfg.warmupDelayMin ≤ base ∧ base ≤ cfg.warmupDelayMax)
      ∧ (cfg.warmupMessages ≤ sc → cfg.minDelay ≤ base ∧ base ≤ cfg.maxDelay)
      ∧ ((cfg.addRandomPause = true ∧ r2 < 1/10) → 10 ≤ pause ∧ pause ≤ 29)
      ∧ (¬ (cfg.addRandomPause = true ∧ r2 < 1/10) → pause = 0)
      ∧ (∀ k : Int,
          (if sc < cfg.warmupMessages then cfg.warmupDelayMin else cfg.minDelay) ≤ k →
          k ≤ (if sc < cfg.warmupMessages then cfg.warmupDelayMax else cfg.maxDelay) →
          ∃ r : ℚ, 0 ≤ r ∧ r < 1 ∧
            jsRandInt
              (if sc < cfg.warmupMessages then cfg.warmupDelayMin else cfg.minDelay)
              (if sc < cfg.warmupMessages then cfg.warmupDelayMax else cfg.maxDelay)
              r = k) := by
  by_cases hwu : sc < cfg.warmupMessages
  · refine ⟨jsRandInt cfg.warmupDelayMin cfg.warmupDelayMax r1,
      if cfg.addRandomPause && decide (r2 < 1/10) then ⌊r3 * 20⌋ + 10 else 0,
      ?_, ?_, ?_, ?_, ?_, ?_⟩
    · unfold getHumanizedDelay
      simp only [if_pos hwu]
      split_ifs <;> ring
    · intro _
      exact jsRandInt_mem _ _ r1 hw h10 h11
    · intro hge
      omega
    · intro hp
      have hp' : (cfg.addRandomPause && decide (r2 < 1/10)) = true := by
        rw [hp.1, decide_eq_true hp.2]
        rfl
      rw [if_pos hp']
      have hlow : (0 : Int) ≤ ⌊r3 * 20⌋ := by
        rw [Int.le_floor]
        positivity
      have hup : ⌊r3 * 20⌋ < 20 := by
        rw [Int.floor_lt]
        push_cast
        linarith
      omega
    · intro hp
      rw [if_neg]
      intro hc
      rcases Bool.and_eq_true_iff.mp hc with ⟨ha, hb⟩
      exact hp ⟨ha, of_decide_eq_true hb⟩
    · intro k hk1 hk2
      rw [if_pos hwu] at hk1 hk2 ⊢
      rw [if_pos hwu]
      exact jsRandInt_surj _ _ k hk1 hk2
  · refine ⟨jsRandInt cfg.minDelay cfg.maxDelay r1,
      if cfg.addRandomPause && decide (r2 < 1/10) then ⌊r3 * 20⌋ + 10 else 0,
      ?_, ?_, ?_, ?_, ?_, ?_⟩
    · unfold getHumanizedDelay
      simp only [if_neg hwu]
      split_ifs <;> ring
    · intro hlt
      exact absurd hlt hwu
    · intro _
      exact jsRandInt_mem _ _ r1 hs h10 h11
    · intro hp
      have hp' : (cfg.addRandomPause && decide (r2 < 1/10)) = true := by
        rw [hp.1, decide_eq_true hp.2]
        rfl
      rw [if_pos hp']
      have hlow : (0 : Int) ≤ ⌊r3 * 20⌋ := by
        rw [Int.le_floor]
        positivity
      have hup : ⌊r3 * 20⌋ < 20 := by
        rw [Int.floor_lt]
        push_cast
        linarith
      omega
    · intro hp
      rw [if_neg]
      intro hc
      rcases Bool.and_eq_true_iff.mp hc with ⟨ha, hb⟩
      exact hp ⟨ha, of_decide_eq_true hb⟩
    · intro k hk1 hk2
      rw [if_neg hwu] at hk1 hk2 ⊢
      rw [if_neg hwu]
      exact jsRandInt_surj _ _ k hk1 hk2

/-- Witness for C5: the default configuration during warmup, with all
three draws at concrete values. -/
theorem getHumanizedDelay_spec_witness :
    ∃ base pause : Int,
      getHumanizedDelay DEFAULT_SETTINGS 0 0 (1/2) 0 = (base + pause) * 1000
      ∧ ((0 : Int) < DEFAULT_SETTINGS.warmupMessages →
          DEFAULT_SETTINGS.warmupDelayMin ≤ base ∧
            base ≤ DEFAULT_SETTINGS.warmupDelayMax)
      ∧ (DEFAULT_SETTINGS.warmupMessages ≤ 0 →
          DEFAULT_SETTINGS.minDelay ≤ base ∧ base ≤ DEFAULT_SETTINGS.maxDelay)
      ∧ ((DEFAULT_SETTINGS.addRandomPause = true ∧ (1/2 : ℚ) < 1/10) →
          10 ≤ pause ∧ pause ≤ 29)
      ∧ (¬ (DEFAULT_SETTINGS.addRandomPause = true ∧ (1/2 : ℚ) < 1/10) →
          pause = 0)
      ∧ (∀ k : Int,
          (if (0 : Int) < DEFAULT_SETTINGS.warmupMessages then
            DEFAULT_SETTINGS.warmupDelayMin else DEFAULT_SETTINGS.minDelay) ≤ k →
          k ≤ (if (0 : Int) < DEFAULT_SETTINGS.warmupMessages then
            DEFAULT_SETTINGS.warmupDelayMax else DEFAULT_SETTINGS.maxDelay) →
          ∃ r : ℚ, 0 ≤ r ∧ r < 1 ∧
            jsRandInt
              (if (0 : Int) < DEFAULT_SETTINGS.warmupMessages then
                DEFAULT_SETTINGS.warmupDelayMin else DEFAULT_SETTINGS.minDelay)
              (if (0 : Int) < DEFAULT_SETTINGS.warmupMessages then
                DEFAULT_SETTINGS.warmupDelayMax else DEFAULT_SETTINGS.maxDelay)
              r = k) :=
  getHumanizedDelay_spec DEFAULT_SETTINGS 0 0 (1/2) 0 le_rfl (by norm_num)
    le_rfl (by norm_num) (by decide) (by decide)

/-- CLAIM C7: a start request is refused exactly when the transport is
not ready, or a run is already in progress, or the recipient list is
empty, or both message and media are absent (JS-falsy); a not-ready
session is answered `notConnected` and a busy ready session
`inProgress`; on refusal the session state is untouched, and on
acceptance the reported total is the recipient count, the flag is set
and a fresh job is created. -/
theorem sendBulkRoute_spec (s : SessionState) (contacts : List Contact)
    (message mediaPath : Option (List Char)) :
    ((∃ t, (sendBulkRoute s contacts message mediaPath).1 = .accepted t) ↔
      s.isReady = true ∧ s.sendingInProgress = false ∧ contacts ≠ [] ∧
        (jsFalsy message && jsFalsy mediaPath) = false)
    ∧ ((¬ ∃ t, (sendBulkRoute s contacts message mediaPath).1 = .accepted t) →
        (sendBulkRoute s contacts message mediaPath).2 = s)
    ∧ (∀ t, (sendBulkRoute s contacts message mediaPath).1 = .accepted t →
        t = contacts.length ∧
        (sendBulkRoute s contacts message mediaPath).2 =
          { s with sendingInProgress := true,
                   currentJob := some (startJob contacts.length) })
    ∧ (s.isReady = false →
        (sendBulkRoute s contacts message mediaPath).1 = .notConnected)
    ∧ (s.isReady = true → s.sendingInProgress = true →
        (sendBulkRoute s contacts message mediaPath).1 = .inProgress) := by
  cases hr : s.isReady with
  | false =>
    refine ⟨?_, ?_, ?_, ?_, ?_⟩
    · simp [sendBulkRoute, hr]
    · intro _
      simp [sendBulkRoute, hr]
    · intro t ht
      simp [sendBulkRoute, hr] at ht
    · intro _
      simp [sendBulkRoute, hr]
    · intro hc
      exact absurd hc (by decide)
  | true =>
    cases hp : s.sendingInProgress with
    | true =>
      refine ⟨?_, ?_, ?_, ?_, ?_⟩
      · simp [sendBulkRoute, hr, hp]
      · intro _
        simp [sendBulkRoute, hr, hp]
      · intro t ht
        simp [sendBulkRoute, hr, hp] at ht
      · intro hc
        exact absurd hc (by decide)
      · intro _ _
        simp [sendBulkRoute, hr, hp]
    | false =>
      by_cases hc : contacts.length = 0
      · refine ⟨?_, ?_, ?_, ?_, ?_⟩
        · simp [sendBulkRoute, hr, hp, hc, List.length_eq_zero.mp hc]
        · intro _
          simp [sendBulkRoute, hr, hp, hc]
        · intro t ht
          simp [sendBulkRoute, hr, hp, hc] at ht
        · intro hfalse
          exact absurd hfalse (by decide)
        · intro _ htrue
          exact absurd htrue (by decide)
      · by_cases hm : (jsFalsy message && jsFalsy mediaPath) = true
        · refine ⟨?_, ?_, ?_, ?_, ?_⟩
          · simp [sendBulkRoute, hr, hp, hc, hm]
          · intro _
            simp [sendBulkRoute, hr, hp, hc, hm]
          · intro t ht
            simp [sendBulkRoute, hr, hp, hc, hm] at ht
          · intro hfalse
            exact absurd hfalse (by decide)
          · intro _ htrue
            exact absurd htrue (by decide)
        · have hm' : (jsFalsy message && jsFalsy mediaPath) = false :=
            Bool.not_eq_true _ ▸ eq_false_of_ne_true hm
          have hne : contacts ≠ [] := by
            intro he
            exact hc (by simp [he])
          refine ⟨?_, ?_, ?_, ?_, ?_⟩
          · simp [sendBulkRoute, hr, hp, hc, hm, hne, hm']
          · intro hno
            exact absurd ⟨contacts.length, by simp [sendBulkRoute, hr, hp, hc, hm]⟩ hno
          · intro t ht
            have ht' : StartResult.accepted contacts.length = .accepted t := by
              rw [← ht]
              simp [sendBulkRoute, hr, hp, hc, hm]
            constructor
            · exact (StartResult.accepted.injEq _ _ ▸ ht').symm ▸ rfl
            · simp [sendBulkRoute, hr, hp, hc, hm]
          · intro hfalse
            exact absurd hfalse (by decide)
          · intro _ htrue
            exact absurd htrue (by decide)

/-- Witness for C7: a ready, idle session with one recipient and a text
message is accepted with total 1. -/
theorem sendBulkRoute_spec_witness :
    (∃ t, (sendBulkRoute
        { isReady := true, sendingInProgress := false, currentJob := none,
          dailyCounter := { date := 0, count := 0 }, sessionCounter := 0,
          settings := DEFAULT_SETTINGS }
        [{ phone := "0812".toList, name := "Ana".toList }]
        (some "hi".toList) none).1 = .accepted t) ↔
      (true = true ∧ false = false ∧
        ([{ phone := "0812".toList, name := "Ana".toList }] :
          List Contact) ≠ [] ∧
        (jsFalsy (some "hi".toList) && jsFalsy none) = false) :=
  (sendBulkRoute_spec
    { isReady := true, sendingInProgress := false, currentJob := none,
      dailyCounter := { date := 0, count := 0 }, sessionCounter := 0,
      settings := DEFAULT_SETTINGS }
    [{ phone := "0812".toList, name := "Ana".toList }]
    (some "hi".toList) none).1

/-- Session used for the C3 counterexample: ready, idle, default
configuration. -/
def readyIdleSession : SessionState :=
  { isReady := true, sendingInProgress := false, currentJob := none,
    dailyCounter := { date := 0, count := 0 }, sessionCounter := 0,
    settings := DEFAULT_SETTINGS }

/-- Settings-update body carrying `batchSize: 0`. -/
def zeroBatchPatch : SettingsPatch := { batchSize := some 0 }

/-- COUNTEREXAMPLE to C3: a settings-update request with `batchSize = 0`
is not refused — the route answers success, the stored configuration is
changed and now carries `batchSize = 0`, and a subsequent start request
under that configuration is accepted. -/
theorem settings_update_accepts_zero_batchSize :
    (updateSettingsRoute readyIdleSession zeroBatchPatch).1 = true
    ∧ (updateSettingsRoute readyIdleSession zeroBatchPatch).2.settings.batchSize = 0
    ∧ (updateSettingsRoute readyIdleSession zeroBatchPatch).2.settings
        ≠ readyIdleSession.settings
    ∧ (sendBulkRoute (updateSettingsRoute readyIdleSession zeroBatchPatch).2
        [{ phone := "0812".toList, name := "Ana".toList }]
        (some "hi".toList) none).1 = .accepted 1 := by
  refine ⟨rfl, rfl, ?_, rfl⟩
  decide

/-- AMENDED C3: the settings-update route performs no validation: any
request body — including one carrying a zero or negative `batchSize` —
is merged into the stored configuration and answered with success, and a
start request under the resulting configuration is still accepted
whenever the usual four guards pass (the start guards never inspect
`batchSize`). -/
theorem settings_update_merges_without_validation (s : SessionState)
    (p : SettingsPatch) (b : Int) (hb : p.batchSize = some b) :
    (updateSettingsRoute s p).1 = true
    ∧ (updateSettingsRoute s p).2.settings.batchSize = b
    ∧ (updateSettingsRoute s p).2.settings = mergeSettings s.settings p
    ∧ (∀ contacts message mediaPath,
        s.isReady = true → s.sendingInProgress = false →
        contacts ≠ ([] : List Contact) →
        (jsFalsy message && jsFalsy mediaPath) = false →
        (sendBulkRoute (updateSettingsRoute s p).2 contacts message mediaPath).1
          = .accepted contacts.length) := by
  refine ⟨rfl, by simp [updateSettingsRoute, mergeSettings, hb], rfl, ?_⟩
  intro contacts message mediaPath hr hp hne hm
  have hc : ¬ contacts.length = 0 := by
    intro hz
    exact hne (List.length_eq_zero.mp hz)
  simp [sendBulkRoute, updateSettingsRoute, hr, hp, hc, hm]

/-- Witness for the amended C3 at concrete inputs. -/
theorem settings_update_merges_without_validation_witness :
    (updateSettingsRoute readyIdleSession zeroBatchPatch).1 = true
    ∧ (updateSettingsRoute readyIdleSession zeroBatchPatch).2.settings.batchSize = 0
    ∧ (updateSettingsRoute readyIdleSession zeroBatchPatch).2.settings
        = mergeSettings readyIdleSession.settings zeroBatchPatch
    ∧ (∀ contacts message mediaPath,
        readyIdleSession.isReady = true →
        readyIdleSession.sendingInProgress = false →
        contacts ≠ ([] : List Contact) →
        (jsFalsy message && jsFalsy mediaPath) = false →
        (sendBulkRoute (updateSettingsRoute readyIdleSession zeroBatchPatch).2
            contacts message mediaPath).1 = .accepted contacts.length) :=
  settings_update_merges_without_validation readyIdleSession zeroBatchPatch 0 rfl

/-- The result entry that iteration `i` records for contact `c`. -/
def entryOf (env : Env) (i : Nat) (c : Contact) : ResultEntry :=
  match stepOutcome env i with
  | none => { phone := c.phone, name := c.name, ok := true, error := none }
  | some msg => { phone := c.phone, name := c.name, ok := false, error := some msg }

lemma processContact_results (env : Env) (i : Nat) (c : Contact) (st : RunState) :
    (processContact env i c st).1.job.results
      = st.job.results ++ [entryOf env i c] := by
  unfold processContact entryOf
  cases stepOutcome env i <;> rfl

lemma processContact_total (env : Env) (i : Nat) (c : Contact) (st : RunState) :
    (processContact env i c st).1.job.total = st.job.total := by
  unfold processContact
  cases stepOutcome env i <;> rfl

lemma processContact_sent_failed (env : Env) (i : Nat) (c : Contact) (st : RunState) :
    (processContact env i c st).1.job.sent + (processContact env i c st).1.job.failed
      = st.job.sent + st.job.failed + 1 := by
  unfold processContact
  cases stepOutcome env i <;> simp <;> omega

lemma processContact_flag (env : Env) (i : Nat) (c : Contact) (st : RunState) :
    (processContact env i c st).1.sendingInProgress = st.sendingInProgress := by
  unfold processContact
  cases stepOutcome env i <;> rfl

lemma quotaState_job (cfg : Settings) (env : Env) (i : Nat) (st : RunState) :
    (quotaState cfg env i st).job = st.job := rfl

lemma quotaState_flag (cfg : Settings) (env : Env) (i : Nat) (st : RunState) :
    (quotaState cfg env i st).sendingInProgress = st.sendingInProgress := rfl

lemma afterRest_job (cfg : Settings) (env : Env) (i : Nat) (st : RunState) :
    (afterRest cfg env i st).job = st.job := by
  unfold afterRest
  split <;> rfl

lemma afterProcess_results (cfg : Settings) (env : Env) (i : Nat) (c : Contact)
    (st : RunState) :
    (afterProcess cfg env i c st).1.job.results
      = st.job.results ++ [entryOf env i c] := by
  unfold afterProcess
  rw [processContact_results]
  rw [afterRest_job]

lemma afterProcess_total (cfg : Settings) (env : Env) (i : Nat) (c : Contact)
    (st : RunState) :
    (afterProcess cfg env i c st).1.job.total = st.job.total := by
  unfold afterProcess
  rw [processContact_total, afterRest_job]

lemma afterProcess_sent_failed (cfg : Settings) (env : Env) (i : Nat) (c : Contact)
    (st : RunState) :
    (afterProcess cfg env i c st).1.job.sent
        + (afterProcess cfg env i c st).1.job.failed
      = st.job.sent + st.job.failed + 1 := by
  unfold afterProcess
  rw [processContact_sent_failed, afterRest_job]

lemma afterDelay_job (cfg : Settings) (env : Env) (i : Nat) (c : Contact)
    (st : RunState) :
    (afterDelay cfg env i c st).job = (afterProcess cfg env i c st).1.job := by
  unfold afterDelay
  split <;> rfl

/-- Result entries recorded for a queue segment whose first contact is
processed at absolute index `i`: one `entryOf` per contact, in
processing order. -/
def entriesFor (env : Env) : Nat → List Contact → List ResultEntry
  | _, [] => []
  | i, c :: rest => entryOf env i c :: entriesFor env (i + 1) rest

lemma entriesFor_length (env : Env) :
    ∀ (i : Nat) (l : List Contact), (entriesFor env i l).length = l.length := by
  intro i l
  induction l generalizing i with
  | nil => rfl
  | cons c rest ih => simp [entriesFor, ih]

lemma runLoop_run (cfg : Settings) (env : Env) :
    ∀ (contacts : List Contact) (i : Nat) (st : RunState),
      ∃ k : Nat, k ≤ contacts.length
        ∧ (runLoop cfg env contacts i st).1.job.total = st.job.total
        ∧ (runLoop cfg env contacts i st).1.job.results
            = st.job.results ++ entriesFor env i (contacts.take k)
        ∧ (runLoop cfg env contacts i st).1.job.sent
              + (runLoop cfg env contacts i st).1.job.failed
            = st.job.sent + st.job.failed + k
        ∧ ((runLoop cfg env contacts i st).2.2 = .completed
            ↔ k = contacts.length) := by
  intro contacts
  induction contacts with
  | nil =>
    intro i st
    exact ⟨0, le_rfl, rfl, by simp [runLoop, entriesFor], by simp [runLoop],
      by simp [runLoop]⟩
  | cons c rest ih =>
    intro i st
    by_cases h1 : st.sendingInProgress = false
    · refine ⟨0, by simp, ?_, ?_, ?_, ?_⟩ <;> simp [runLoop, h1, entriesFor]
    · by_cases h2 : quotaAllowed cfg env i st = false
      · refine ⟨0, by simp, ?_, ?_, ?_, ?_⟩ <;>
          simp [runLoop, h1, h2, quotaState_job, entriesFor]
      · by_cases h3 : rest.isEmpty = false ∧
            (afterProcess cfg env i c st).1.sendingInProgress = true
        · obtain ⟨k, hk, h4, h5, h6, h7⟩ := ih (i + 1) (afterDelay cfg env i c st)
          refine ⟨k + 1, by simp; omega, ?_, ?_, ?_, ?_⟩
          · simp only [runLoop, if_neg h1, if_neg h2, if_pos h3]
            rw [h4, afterDelay_job, afterProcess_total]
          · simp only [runLoop, if_neg h1, if_neg h2, if_pos h3]
            rw [h5, afterDelay_job, afterProcess_results]
            simp [entriesFor, List.take_succ_cons, List.append_assoc]
          · simp only [runLoop, if_neg h1, if_neg h2, if_pos h3]
            rw [h6, afterDelay_job, afterProcess_sent_failed]
            omega
          · simp only [runLoop, if_neg h1, if_neg h2, if_pos h3]
            rw [h7]
            simp only [List.length_cons]
            omega
        · obtain ⟨k, hk, h4, h5, h6, h7⟩ := ih (i + 1) (afterProcess cfg env i c st).1
          refine ⟨k + 1, by simp; omega, ?_, ?_, ?_, ?_⟩
          · simp only [runLoop, if_neg h1, if_neg h2, if_neg h3]
            rw [h4, afterProcess_total]
          · simp only [runLoop, if_neg h1, if_neg h2, if_neg h3]
            rw [h5, afterProcess_results]
            simp [entriesFor, List.take_succ_cons, List.append_assoc]
          · simp only [runLoop, if_neg h1, if_neg h2, if_neg h3]
            rw [h6, afterProcess_sent_failed]
            omega
          · simp only [runLoop, if_neg h1, if_neg h2, if_neg h3]
            rw [h7]
            simp only [List.length_cons]
            omega

/-- Initial run state as set up by the send-bulk route: the fresh job
over `n` recipients together with the session counters and the flag. -/
def initialRunState (n : Nat) (dc : DailyCounter) (sc : Int) (b : Bool) : RunState :=
  { job := startJob n, dailyCounter := dc, sessionCounter := sc,
    sendingInProgress := b }

/-- CLAIM C8: starting from the fresh job created by the start request,
every halt of `processBulkSend` — normal completion, stop, or quota
exhaustion — leaves a final snapshot in which `total` is the recipient
count of the request, `sent + failed` equals the number of result
entries, at most `total` recipients were attempted, and
`total - sent - failed` equals the number of recipients never attempted
(`total` minus the number of result entries); that number is nonzero
only on an early halt: a run that halts as `completed` has a result
entry for every recipient. -/
theorem final_job_accounting (cfg : Settings) (env : Env)
    (contacts : List Contact) (dc : DailyCounter) (sc : Int) (b : Bool) :
    (processBulkSend cfg env contacts
        (initialRunState contacts.length dc sc b)).1.job.total = contacts.length
    ∧ (processBulkSend cfg env contacts
          (initialRunState contacts.length dc sc b)).1.job.sent
        + (processBulkSend cfg env contacts
            (initialRunState contacts.length dc sc b)).1.job.failed
      = (processBulkSend cfg env contacts
          (initialRunState contacts.length dc sc b)).1.job.results.length
    ∧ (processBulkSend cfg env contacts
          (initialRunState contacts.length dc sc b)).1.job.results.length
      ≤ contacts.length
    ∧ contacts.length
        - (processBulkSend cfg env contacts
            (initialRunState contacts.length dc sc b)).1.job.sent
        - (processBulkSend cfg env contacts
            (initialRunState contacts.length dc sc b)).1.job.failed
      = contacts.length
        - (processBulkSend cfg env contacts
            (initialRunState contacts.length dc sc b)).1.job.results.length
    ∧ ((processBulkSend cfg env contacts
          (initialRunState contacts.length dc sc b)).2.2 = .completed →
        (processBulkSend cfg env contacts
            (initialRunState contacts.length dc sc b)).1.job.results.length
          = contacts.length) := by
  obtain ⟨k, hk, h4, h5, h6, h7⟩ := runLoop_run cfg env contacts 0
    (initialRunState contacts.length dc sc b)
  have e1 : (initialRunState contacts.length dc sc b).job.total
      = contacts.length := rfl
  have e2 : (initialRunState contacts.length dc sc b).job.results
      = [] := rfl
  have e3 : (initialRunState contacts.length dc sc b).job.sent = 0 := rfl
  have e4 : (initialRunState contacts.length dc sc b).job.failed = 0 := rfl
  rw [e1] at h4
  rw [e2] at h5
  rw [e3, e4] at h6
  have hlen : (runLoop cfg env contacts 0
      (initialRunState contacts.length dc sc b)).1.job.results.length = k := by
    rw [h5]
    simp [entriesFor_length, List.length_take]
    omega
  have hj : (processBulkSend cfg env contacts
      (initialRunState contacts.length dc sc b)).1.job
      = (runLoop cfg env contacts 0
          (initialRunState contacts.length dc sc b)).1.job := rfl
  have hr : (processBulkSend cfg env contacts
      (initialRunState contacts.length dc sc b)).2.2
      = (runLoop cfg env contacts 0
          (initialRunState contacts.length dc sc b)).2.2 := rfl
  rw [hj, hr]
  refine ⟨h4, ?_, ?_, ?_, ?_⟩
  · omega
  · omega
  · omega
  · intro hcompleted
    rw [hlen]
    exact h7.mp hcompleted

lemma quotaState_of_date_eq (cfg : Settings) (env : Env) (i : Nat)
    (st : RunState) (hdate : env.today i = st.dailyCounter.date) :
    quotaState cfg env i st = st := by
  unfold quotaState checkDailyLimit
  simp only [hdate]
  rw [if_neg (by simp)]

lemma quotaAllowed_of_date_eq (cfg : Settings) (env : Env) (i : Nat)
    (st : RunState) (hdate : env.today i = st.dailyCounter.date)
    (hcount : st.dailyCounter.count < cfg.dailyLimit) :
    ¬ quotaAllowed cfg env i st = false := by
  unfold quotaAllowed checkDailyLimit
  simp only [hdate]
  rw [if_neg (by simp)]
  simp [hcount]

lemma afterRest_of_no_stop (cfg : Settings) (env : Env) (i : Nat)
    (st : RunState) (hsr : env.stopDuringRest i = false) :
    afterRest cfg env i st = quotaState cfg env i st := by
  unfold afterRest
  rw [hsr, Bool.and_false, if_neg (by simp)]

lemma afterDelay_of_no_stop (cfg : Settings) (env : Env) (i : Nat) (c : Contact)
    (st : RunState) (hsd : env.stopDuringDelay i = false) :
    afterDelay cfg env i c st = (afterProcess cfg env i c st).1 := by
  unfold afterDelay
  rw [hsd, if_neg (by simp)]

lemma processContact_date (env : Env) (i : Nat) (c : Contact) (st : RunState) :
    (processContact env i c st).1.dailyCounter.date = st.dailyCounter.date := by
  unfold processContact
  cases stepOutcome env i <;> rfl

lemma processContact_count_le (env : Env) (i : Nat) (c : Contact) (st : RunState) :
    (processContact env i c st).1.dailyCounter.count
      ≤ st.dailyCounter.count + 1 := by
  unfold processContact
  cases stepOutcome env i with
  | none => simp
  | some m => simp

lemma afterProcess_of_no_stop (cfg : Settings) (env : Env) (i : Nat)
    (c : Contact) (st : RunState)
    (hdate : env.today i = st.dailyCounter.date)
    (hsr : env.stopDuringRest i = false) :
    afterProcess cfg env i c st = processContact env i c st := by
  unfold afterProcess
  rw [afterRest_of_no_stop cfg env i st hsr,
    quotaState_of_date_eq cfg env i st hdate]

lemma runLoop_no_stop (cfg : Settings) (env : Env)
    (hsr : ∀ j, env.stopDuringRest j = false)
    (hsd : ∀ j, env.stopDuringDelay j = false) :
    ∀ (contacts : List Contact) (i : Nat) (st : RunState),
      st.sendingInProgress = true →
      (∀ j, env.today j = st.dailyCounter.date) →
      st.dailyCounter.count + (contacts.length : Int) ≤ cfg.dailyLimit →
      (runLoop cfg env contacts i st).2.2 = .completed
      ∧ (runLoop cfg env contacts i st).1.job.results
          = st.job.results ++ entriesFor env i contacts := by
  intro contacts
  induction contacts with
  | nil =>
    intro i st h1 hdate hquota
    exact ⟨rfl, by simp [runLoop, entriesFor]⟩
  | cons c rest ih =>
    intro i st h1 hdate hquota
    have h1' : ¬ st.sendingInProgress = false := by simp [h1]
    have hlen : ((c :: rest).length : Int) = (rest.length : Int) + 1 := by
      simp
    have hcnt : st.dailyCounter.count < cfg.dailyLimit := by
      omega
    have hqa := quotaAllowed_of_date_eq cfg env i st (hdate i) hcnt
    have hap := afterProcess_of_no_stop cfg env i c st (hdate i) (hsr i)
    have hflag : (afterProcess cfg env i c st).1.sendingInProgress = true := by
      rw [hap, processContact_flag]
      exact h1
    have hdate' : ∀ j, env.today j
        = (afterProcess cfg env i c st).1.dailyCounter.date := by
      intro j
      rw [hap, processContact_date]
      exact hdate j
    have hquota' : (afterProcess cfg env i c st).1.dailyCounter.count
        + (rest.length : Int) ≤ cfg.dailyLimit := by
      have hle := processContact_count_le env i c st
      rw [hap]
      omega
    obtain ⟨ih1, ih2⟩ :=
      ih (i + 1) (afterProcess cfg env i c st).1 hflag hdate' hquota'
    by_cases hre : rest.isEmpty = false
    · have hcond : rest.isEmpty = false ∧
          (afterProcess cfg env i c st).1.sendingInProgress = true := ⟨hre, hflag⟩
      constructor
      · simp only [runLoop, if_neg h1', if_neg hqa, if_pos hcond]
        rw [afterDelay_of_no_stop cfg env i c st (hsd i)]
        exact ih1
      · simp only [runLoop, if_neg h1', if_neg hqa, if_pos hcond]
        rw [afterDelay_of_no_stop cfg env i c st (hsd i), ih2,
          afterProcess_results]
        simp [entriesFor, List.append_assoc]
    · have hre' : rest = [] := by
        cases rest with
        | nil => rfl
        | cons x xs => exact absurd rfl hre
      subst hre'
      have hcond : ¬ (([] : List Contact).isEmpty = false ∧
          (afterProcess cfg env i c st).1.sendingInProgress = true) := by simp
      constructor
      · simp only [runLoop, if_neg h1', if_neg hqa, if_neg hcond]
      · simp only [runLoop, if_neg h1', if_neg hqa, if_neg hcond]
        rw [afterProcess_results]
        simp [entriesFor]

/-- CLAIM C1: per-recipient failures are always recovered locally, for
arbitrary outcome patterns.  Whenever no stop request arrives and the
daily quota has headroom for the whole queue, every recipient is
attempted — whatever mixture of successes, registration failures and
dispatch (`sendMessage`) failures the transport produces — each
recipient receives exactly its own result entry in processing order, and
the run still terminates as `completed`; the entry of a recipient whose
processing failed (registration check or dispatch — `stepOutcome` is
`some` exactly for those) is the failed entry carrying that error, and
the entry of a delivered recipient is the success entry.  Moreover, for
every environment, queue and state whatsoever — stop requests, quota
exhaustion and failures included — the recorded results are exactly the
per-recipient entries of the attempted prefix, and `processBulkSend`
ends by emitting the `bulk_complete` event carrying the final job
snapshot, so no per-recipient failure can prevent the final snapshot or
the completion event. -/
theorem bulk_send_recovers_per_recipient_failures (cfg : Settings) (env : Env)
    (contacts : List Contact) (st : RunState)
    (hrun : st.sendingInProgress = true)
    (hsr : ∀ j, env.stopDuringRest j = false)
    (hsd : ∀ j, env.stopDuringDelay j = false)
    (hdate : ∀ j, env.today j = st.dailyCounter.date)
    (hquota : st.dailyCounter.count + (contacts.length : Int) ≤ cfg.dailyLimit) :
    (processBulkSend cfg env contacts st).2.2 = .completed
    ∧ (processBulkSend cfg env contacts st).1.job.results
        = st.job.results ++ entriesFor env 0 contacts
    ∧ (∀ (j : Nat) (c : Contact) (m : List Char), stepOutcome env j = some m →
        entryOf env j c
          = { phone := c.phone, name := c.name, ok := false, error := some m })
    ∧ (∀ (j : Nat) (c : Contact), stepOutcome env j = none →
        entryOf env j c
          = { phone := c.phone, name := c.name, ok := true, error := none })
    ∧ (∀ (envAny : Env) (contactsAny : List Contact) (stAny : RunState),
        (∃ k : Nat, k ≤ contactsAny.length ∧
          (processBulkSend cfg envAny contactsAny stAny).1.job.results
            = stAny.job.results ++ entriesFor envAny 0 (contactsAny.take k)) ∧
        (processBulkSend cfg envAny contactsAny stAny).2.1.getLast?
          = some (.bulkComplete
              (processBulkSend cfg envAny contactsAny stAny).1.job)) := by
  obtain ⟨h1, h2⟩ := runLoop_no_stop cfg env hsr hsd contacts 0 st hrun hdate hquota
  refine ⟨h1, h2, ?_, ?_, ?_⟩
  · intro j c m hm
    unfold entryOf
    rw [hm]
  · intro j c hm
    unfold entryOf
    rw [hm]
  · intro envAny contactsAny stAny
    obtain ⟨k, hk, -, hres, -, -⟩ := runLoop_run cfg envAny contactsAny 0 stAny
    exact ⟨⟨k, hk, hres⟩, List.getLast?_concat _⟩

/-- Environment used by witnesses: every address unregistered, no stop
requests, constant date. -/
def allFailEnv : Env :=
  { registered := fun _ => false, sendErr := fun _ => none,
    stopDuringRest := fun _ => false, stopDuringDelay := fun _ => false,
    today := fun _ => 0 }

/-- Environment of the C1 witness: recipient 0 is delivered, recipient 1
fails in dispatch (`sendMessage` throws), recipient 2 is unregistered;
no stop requests, constant date. -/
def mixedEnv : Env :=
  { registered := fun j => !(decide (j = 2)),
    sendErr := fun j => if j = 1 then some "Send timeout".toList else none,
    stopDuringRest := fun _ => false, stopDuringDelay := fun _ => false,
    today := fun _ => 0 }

/-- Three concrete recipients for the C1 witness. -/
def threeContacts : List Contact :=
  [{ phone := "0811".toList, name := "A".toList },
   { phone := "0812".toList, name := "B".toList },
   { phone := "0813".toList, name := "C".toList }]

/-- Witness for C1: a three-recipient run with one success, one dispatch
failure and one registration failure is still completed with all three
result entries recorded. -/
theorem bulk_send_recovers_per_recipient_failures_witness :
    (processBulkSend DEFAULT_SETTINGS mixedEnv threeContacts
        (initialRunState 3 { date := 0, count := 0 } 0 true)).2.2 = .completed
    ∧ (processBulkSend DEFAULT_SETTINGS mixedEnv threeContacts
        (initialRunState 3 { date := 0, count := 0 } 0 true)).1.job.results
      = (initialRunState 3 { date := 0, count := 0 } 0 true).job.results
          ++ entriesFor mixedEnv 0 threeContacts
    ∧ (∀ (j : Nat) (c : Contact) (m : List Char),
        stepOutcome mixedEnv j = some m →
        entryOf mixedEnv j c
          = { phone := c.phone, name := c.name, ok := false, error := some m })
    ∧ (∀ (j : Nat) (c : Contact), stepOutcome mixedEnv j = none →
        entryOf mixedEnv j c
          = { phone := c.phone, name := c.name, ok := true, error := none })
    ∧ (∀ (envAny : Env) (contactsAny : List Contact) (stAny : RunState),
        (∃ k : Nat, k ≤ contactsAny.length ∧
          (processBulkSend DEFAULT_SETTINGS envAny contactsAny stAny).1.job.results
            = stAny.job.results ++ entriesFor envAny 0 (contactsAny.take k)) ∧
        (processBulkSend DEFAULT_SETTINGS envAny contactsAny stAny).2.1.getLast?
          = some (.bulkComplete
              (processBulkSend DEFAULT_SETTINGS envAny contactsAny
                stAny).1.job)) :=
  bulk_send_recovers_per_recipient_failures DEFAULT_SETTINGS mixedEnv
    threeContacts (initialRunState 3 { date := 0, count := 0 } 0 true)
    rfl (fun _ => rfl) (fun _ => rfl) (fun _ => rfl) (by decide)

/-- Environment of the C2 counterexample: every address registered and
deliverable, no stop during delays, constant date, and a stop request
arriving during the batch-rest wait before queue index 1. -/
def stopDuringRestEnv : Env :=
  { registered := fun _ => true, sendErr := fun _ => none,
    stopDuringRest := fun j => decide (j = 1),
    stopDuringDelay := fun _ => false,
    today := fun _ => 0 }

/-- Configuration with `batchSize = 1`, making a batch rest due before
queue index 1. -/
def batchOneSettings : Settings := { DEFAULT_SETTINGS with batchSize := 1 }

/-- Two concrete recipients. -/
def twoContacts : List Contact :=
  [{ phone := "0811".toList, name := "A".toList },
   { phone := "0812".toList, name := "B".toList }]

/-- COUNTEREXAMPLE to C2: with `batchSize = 1` and a stop request set
during the batch-rest wait before recipient 1, recipient 1 is
nevertheless processed — the final job records two sends and two result
entries, and the run even ends `completed`, not `Stopped`, contradicting
the claim that recipient 1 and all later recipients are left
unattempted. -/
theorem stop_during_batch_rest_still_sends :
    needsBatchRest batchOneSettings.batchSize 1 = true
    ∧ stopDuringRestEnv.stopDuringRest 1 = true
    ∧ (processBulkSend batchOneSettings stopDuringRestEnv twoContacts
        (initialRunState 2 { date := 0, count := 0 } 0 true)).1.job.sent = 2
    ∧ (processBulkSend batchOneSettings stopDuringRestEnv twoContacts
        (initialRunState 2 { date := 0, count := 0 } 0 true)).1.job.results.length
      = 2
    ∧ (processBulkSend batchOneSettings stopDuringRestEnv twoContacts
        (initialRunState 2 { date := 0, count := 0 } 0 true)).2.2
      = HaltReason.completed := by
  refine ⟨by decide, by decide, by decide, by decide, by decide⟩

/-- AMENDED C2: a stop request set while the controller is suspended in
a batch-rest wait before recipient `i` is NOT re-checked after the wait:
recipient `i` is still processed and its result entry recorded, the flag
is only observed afterwards, so the run halts with exactly this one
additional attempt — recipients after `i` are unattempted (halt reason
`stopped` when any remain, `completed` when `i` was the last). -/
theorem stop_during_batch_rest_takes_effect_after_send (cfg : Settings)
    (env : Env) (c : Contact) (rest : List Contact) (i : Nat) (st : RunState)
    (hrun : st.sendingInProgress = true)
    (hdate : env.today i = st.dailyCounter.date)
    (hquota : st.dailyCounter.count < cfg.dailyLimit)
    (hrest : needsBatchRest cfg.batchSize i = true)
    (hstop : env.stopDuringRest i = true) :
    (runLoop cfg env (c :: rest) i st).1.job.results
        = st.job.results ++ [entryOf env i c]
    ∧ (entryOf env i c).phone = c.phone
    ∧ (entryOf env i c).name = c.name
    ∧ (runLoop cfg env (c :: rest) i st).1.sendingInProgress = false
    ∧ (rest = [] → (runLoop cfg env (c :: rest) i st).2.2 = .completed)
    ∧ (rest ≠ [] → (runLoop cfg env (c :: rest) i st).2.2 = .stopped) := by
  have h1' : ¬ st.sendingInProgress = false := by simp [hrun]
  have hqa := quotaAllowed_of_date_eq cfg env i st hdate hquota
  have hqs := quotaState_of_date_eq cfg env i st hdate
  have har : afterRest cfg env i st = { st with sendingInProgress := false } := by
    unfold afterRest
    rw [hrest, hstop, if_pos (show (true && true) = true from rfl), hqs]
  have hflag : (afterProcess cfg env i c st).1.sendingInProgress = false := by
    unfold afterProcess
    rw [processContact_flag, har]
  have hres : (afterProcess cfg env i c st).1.job.results
      = st.job.results ++ [entryOf env i c] := by
    unfold afterProcess
    rw [processContact_results, har]
  have hcond : ¬ ((rest.isEmpty = false) ∧
      (afterProcess cfg env i c st).1.sendingInProgress = true) := by
    rintro ⟨-, hf⟩
    rw [hflag] at hf
    exact Bool.false_ne_true hf
  refine ⟨?_, ?_, ?_, ?_, ?_, ?_⟩
  · simp only [runLoop, if_neg h1', if_neg hqa, if_neg hcond]
    cases rest with
    | nil =>
      simp only [runLoop]
      exact hres
    | cons x xs =>
      simp only [runLoop, if_pos hflag]
      exact hres
  · unfold entryOf
    cases stepOutcome env i <;> rfl
  · unfold entryOf
    cases stepOutcome env i <;> rfl
  · simp only [runLoop, if_neg h1', if_neg hqa, if_neg hcond]
    cases rest with
    | nil =>
      simp only [runLoop]
      exact hflag
    | cons x xs =>
      simp only [runLoop, if_pos hflag]
      exact hflag
  · intro hnil
    subst hnil
    simp only [runLoop, if_neg h1', if_neg hqa, if_neg hcond]
  · intro hne
    cases rest with
    | nil => exact absurd rfl hne
    | cons x xs =>
      simp only [runLoop, if_neg h1', if_neg hqa, if_neg hcond, if_pos hflag]

/-- Witness for the amended C2: with `batchSize = 1`, the stop during
the rest before index 1 still records recipient B and leaves the flag
cleared, completing (B was last). -/
theorem stop_during_batch_rest_takes_effect_after_send_witness :
    (runLoop batchOneSettings stopDuringRestEnv
        [{ phone := "0812".toList, name := "B".toList }] 1
        (initialRunState 2 { date := 0, count := 0 } 0 true)).1.job.results
      = (initialRunState 2 { date := 0, count := 0 } 0 true).job.results
          ++ [entryOf stopDuringRestEnv 1
              { phone := "0812".toList, name := "B".toList }]
    ∧ (entryOf stopDuringRestEnv 1
        { phone := "0812".toList, name := "B".toList }).phone = "0812".toList
    ∧ (entryOf stopDuringRestEnv 1
        { phone := "0812".toList, name := "B".toList }).name = "B".toList
    ∧ (runLoop batchOneSettings stopDuringRestEnv
        [{ phone := "0812".toList, name := "B".toList }] 1
        (initialRunState 2 { date := 0, count := 0 } 0 true)).1.sendingInProgress
      = false
    ∧ (([] : List Contact) = [] →
        (runLoop batchOneSettings stopDuringRestEnv
          [{ phone := "0812".toList, name := "B".toList }] 1
          (initialRunState 2 { date := 0, count := 0 } 0 true)).2.2 = .completed)
    ∧ (([] : List Contact) ≠ [] →
        (runLoop batchOneSettings stopDuringRestEnv
          [{ phone := "0812".toList, name := "B".toList }] 1
          (initialRunState 2 { date := 0, count := 0 } 0 true)).2.2 = .stopped) :=
  stop_during_batch_rest_takes_effect_after_send batchOneSettings
    stopDuringRestEnv { phone := "0812".toList, name := "B".toList } [] 1
    (initialRunState 2 { date := 0, count := 0 } 0 true)
    rfl rfl (by decide) (by decide) (by decide)

/-- Witness for C8 discharging the early-halt implication at a concrete
run: the two-recipient all-failure run halts as `completed`, and
accordingly its snapshot carries a result entry for every recipient. -/
theorem final_job_accounting_witness :
    (processBulkSend DEFAULT_SETTINGS allFailEnv twoContacts
        (initialRunState twoContacts.length { date := 0, count := 0 } 0
          true)).2.2 = .completed
    ∧ (processBulkSend DEFAULT_SETTINGS allFailEnv twoContacts
        (initialRunState twoContacts.length { date := 0, count := 0 } 0
          true)).1.job.results.length = twoContacts.length :=
  ⟨by decide,
   (final_job_accounting DEFAULT_SETTINGS allFailEnv twoContacts
      { date := 0, count := 0 } 0 true).2.2.2.2 (by decide)⟩

end BulkSender
